import Mathlib

/-!
Verification development for the redb-extras storage-layout layer.

The definitions below are a shallow embedding of the Rust sources:
byte strings become `List Nat` (each element a byte value), the ordered
byte-keyed tables of the base store become sorted association lists,
machine integers become `Nat` with explicit reductions modulo powers of
two where overflow matters, and fallible operations return `Except`.
External collaborators (the xxh3 hash, the roaring bitmap codec) are
taken as parameters.
-/

deriving instance DecidableEq for Except

namespace RedbExtras

/-- Big-endian byte encoding of a natural number, `w` bytes wide
(mirrors Rust `to_be_bytes` applied to the value truncated to `w` bytes). -/
def beBytes : Nat → Nat → List Nat
  | 0, _ => []
  | w + 1, n => beBytes w (n / 256) ++ [n % 256]

/-- Reads a big-endian byte list as a natural number (mirrors
`u32::from_be_bytes` / `u16::from_be_bytes` in `partition/scan.rs`). -/
def fromBe (bs : List Nat) : Nat :=
  bs.foldl (fun a b => a * 256 + b) 0

/-- Errors of the partition layer, from `src/error.rs`. -/
inductive PartitionError where
  | InvalidShardCount (count : Nat)
  | InvalidSegmentSize (size : Nat)
  | MetaOperationFailed (msg : String)
  | SegmentScanFailed (msg : String)
  | DatabaseError (msg : String)
deriving DecidableEq

/-- Partition configuration, from `src/partition/config.rs`. -/
structure PartitionConfig where
  shard_count : Nat
  segment_max_bytes : Nat
  use_meta : Bool
deriving DecidableEq

/-- Shard selection from `src/partition/shard.rs::select_shard`. The
external `xxh3_64` hash of the `xxhash_rust` crate is passed in as the
parameter `hash` (a function from byte strings to 64-bit hash values). -/
def select_shard (hash : List Nat → Nat) (base_key : List Nat)
    (element_id : Nat) (shard_count : Nat) : Except PartitionError Nat :=
  if shard_count = 0 then
    Except.error (PartitionError.InvalidShardCount shard_count)
  else
    let hasher := hash base_key
    let hasher := Nat.xor (hash (beBytes 8 element_id)) hasher
    Except.ok (hasher % shard_count)

/-- Lexicographic strict order on byte strings, as redb orders `&[u8]` keys. -/
def lexLt : List Nat → List Nat → Bool
  | _, [] => false
  | [], _ :: _ => true
  | x :: xs, y :: ys => if x < y then true else if y < x then false else lexLt xs ys

/-- A redb table keyed by byte strings: an association list kept sorted in
key order, mirroring the ordered table of the base store. -/
abbrev SegTable := List (List Nat × List Nat)

/-- Point lookup in a byte-keyed table. -/
def tblGet (t : SegTable) (k : List Nat) : Option (List Nat) :=
  match t with
  | [] => none
  | e :: rest => if e.fst = k then some e.snd else tblGet rest k

/-- Insert (or overwrite) a key in a byte-keyed table, keeping key order. -/
def tblInsert (t : SegTable) (k v : List Nat) : SegTable :=
  match t with
  | [] => [(k, v)]
  | e :: rest =>
    if e.fst = k then (k, v) :: rest
    else if lexLt k e.fst then (k, v) :: e :: rest
    else e :: tblInsert rest k v

/-- Segment key encoding from `partition/table.rs::encode_segment_key`:
4-byte big-endian length prefix, base key bytes, then shard and segment
as 2-byte big-endian fields. -/
def encode_segment_key (key : List Nat) (shard segment : Nat) : List Nat :=
  beBytes 4 key.length ++ key ++ beBytes 2 shard ++ beBytes 2 segment

/-- Meta key encoding from `encoding/key.rs::encode_meta_key`:
length prefix, base key, then the shard field only. -/
def encode_meta_key (key : List Nat) (shard : Nat) : List Nat :=
  beBytes 4 key.length ++ key ++ beBytes 2 shard

/-- Scan prefix from `partition/scan.rs::build_segment_prefix`. -/
def segmentPrefixBytes (base_key : List Nat) (shard : Nat) : List Nat :=
  beBytes 4 base_key.length ++ base_key ++ beBytes 2 shard

/-- The `u8::saturating_add(1)` applied to a byte. -/
def satAdd1 (b : Nat) : Nat := if 255 ≤ b then 255 else b + 1

/-- Replace the last element of a byte string. -/
def mapLast (f : Nat → Nat) : List Nat → List Nat
  | [] => []
  | [b] => [f b]
  | b :: c :: rest => b :: mapLast f (c :: rest)

/-- Scan bounds from `partition/scan.rs::build_segment_scan_range`: the
prefix itself is the inclusive start, and the prefix with its last byte
bumped by a saturating one is the exclusive end. -/
def build_segment_scan_range (base_key : List Nat) (shard : Nat) :
    Except PartitionError (List Nat × List Nat) :=
  let start_key := segmentPrefixBytes base_key shard
  if start_key = [] then
    Except.error (PartitionError.SegmentScanFailed ("Prefix key is empty, cannot create range"))
  else
    Except.ok (start_key, mapLast satAdd1 start_key)

/-- Segment metadata from `partition/scan.rs::SegmentInfo`. -/
structure SegmentInfo where
  segment_id : Nat
  segment_key : List Nat
  segment_data : Option (List Nat)
deriving DecidableEq

/-- Segment-id extraction from `partition/scan.rs::extract_segment_id`:
the id is read big-endian from the last two bytes of the encoded key. -/
def extract_segment_id (encoded_key : List Nat) : Except PartitionError Nat :=
  if encoded_key.length < 6 then
    Except.error (PartitionError.SegmentScanFailed ("Encoded key too short to contain segment ID"))
  else
    Except.ok (fromBe (encoded_key.drop (encoded_key.length - 2)))

/-- Defensive key check from `partition/scan.rs::validate_key_match`. -/
def validate_key_match (encoded_key expected_base_key : List Nat)
    (expected_shard : Nat) : Bool :=
  if encoded_key.length < 4 then false
  else
    let key_len := fromBe (encoded_key.take 4)
    if encoded_key.length < 4 + key_len + 4 then false
    else
      let base := (encoded_key.drop 4).take key_len
      if base == expected_base_key then
        fromBe ((encoded_key.drop (4 + key_len)).take 2) == expected_shard
      else false

/-- Segment enumeration from `partition/scan.rs::enumerate_segments`:
a bounded range scan of the segment table, keeping only keys that pass
the defensive `(base_key, shard)` re-check, each yielding its id. -/
def enumerate_segments (t : SegTable) (base_key : List Nat) (shard : Nat) :
    Except PartitionError (List SegmentInfo) := do
  let bounds ← build_segment_scan_range base_key shard
  let hits := t.filter (fun e => (!lexLt e.fst bounds.fst) && lexLt e.fst bounds.snd)
  let matched := hits.filter (fun e => validate_key_match e.fst base_key shard)
  matched.mapM (fun e =>
    (extract_segment_id e.fst).map (fun sid => ⟨sid, e.fst, some e.snd⟩))

/-- Head discovery from `partition/scan.rs::find_head_segment`: the last
segment id produced by the enumeration, `none` when no segment exists. -/
def find_head_segment (t : SegTable) (base_key : List Nat) (shard : Nat) :
    Except PartitionError (Option Nat) :=
  (enumerate_segments t base_key shard).map
    (fun l => l.foldl (fun _ si => some si.segment_id) none)

/-- The durable state touched by the partition layer: the segment table
and the meta table (`SEGMENT_TABLE` and `META_TABLE` in `partition/table.rs`). -/
structure DbState where
  seg : SegTable
  meta : SegTable
deriving DecidableEq

/-- Head-segment update from `partition/table.rs::PartitionedWrite::update_head_segment`.
Head discovery goes through `find_head_segment_scan`, a prefix scan of the
segment table. The roll branch computes `segment_id + 1` on a `u16` with no
overflow check: in release builds this wraps modulo 2^16 (debug builds abort),
modelled here as addition modulo 65536. -/
def update_head_segment (cfg : PartitionConfig) (db : DbState) (key : List Nat)
    (shard : Nat) (data : List Nat) :
    Except PartitionError ((Bool × Nat) × DbState) :=
  match find_head_segment db.seg key shard with
  | Except.error e => Except.error e
  | Except.ok head =>
    match head with
    | some segment_id =>
      if data.length ≤ cfg.segment_max_bytes then
        let sk := encode_segment_key key shard segment_id
        Except.ok ((false, segment_id), ⟨tblInsert db.seg sk data, db.meta⟩)
      else
        let new_segment_id := (segment_id + 1) % 65536
        let sk := encode_segment_key key shard new_segment_id
        Except.ok ((true, new_segment_id), ⟨tblInsert db.seg sk data, db.meta⟩)
    | none =>
      Except.ok ((true, 0), ⟨tblInsert db.seg (encode_segment_key key shard 0) data, db.meta⟩)

/-- Example hash standing in for xxh3 in witnesses. -/
def exHash (l : List Nat) : Nat :=
  l.foldl (fun a b => a * 31 + b) 7

/-- Fixture: a segment table whose only entry is segment 65535 of key 0x01, shard 0. -/
def c1Db : DbState := ⟨[(encode_segment_key [1] 0 65535, [9])], []⟩

/-- Fixture: a segment table whose only entry is segment 65535 of key 0x02, shard 1. -/
def c2Db : DbState := ⟨[(encode_segment_key [2] 1 65535, [9])], []⟩

/-- Fixture: a segment table holding segment 3 of key 0x02, shard 0. -/
def wDb : DbState := ⟨[(encode_segment_key [2] 0 3, [9])], []⟩

/-- Errors of the bucket layer, from `src/buckets/mod.rs`. -/
inductive BucketError where
  | InvalidBucketSize (size : Nat)
  | InvalidRange (start stop : Nat)
  | SerializationError (msg : String)
  | IterationError (msg : String)
deriving DecidableEq

/-- Bucket configuration, from `src/buckets/key.rs::KeyBuilder`. -/
structure KeyBuilder where
  bucket_size : Nat
deriving DecidableEq

/-- Constructor guard from `KeyBuilder::new`: a zero bucket size is rejected. -/
def KeyBuilder.new (bucket_size : Nat) : Except BucketError KeyBuilder :=
  if bucket_size = 0 then Except.error (BucketError.InvalidBucketSize bucket_size)
  else Except.ok ⟨bucket_size⟩

/-- A bucketed key over a `u64` base key, from `src/buckets/key.rs`. -/
structure BucketedKey where
  base_key : Nat
  bucket : Nat
deriving DecidableEq

/-- Bucket computation from `KeyBuilder::bucketed_key`: integer division of
the sequence by the bucket size. -/
def KeyBuilder.bucketed_key (kb : KeyBuilder) (base_key sequence : Nat) : BucketedKey :=
  ⟨base_key, sequence / kb.bucket_size⟩

/-- Little-endian byte encoding of a natural number, `w` bytes wide
(mirrors Rust `to_le_bytes` applied to the value truncated to `w` bytes). -/
def leBytes : Nat → Nat → List Nat
  | 0, _ => []
  | w + 1, n => n % 256 :: leBytes w (n / 256)

/-- Reads a little-endian byte list as a natural number (mirrors
`u64::from_le_bytes` in `buckets/key.rs`). -/
def fromLe (bs : List Nat) : Nat :=
  bs.foldr (fun b acc => acc * 256 + b) 0

/-- Encoding from `buckets/key.rs::<BucketedKey<u64> as Value>::as_bytes`:
the 8-byte little-endian bucket followed by the 8-byte little-endian base key. -/
def BucketedKey.as_bytes (k : BucketedKey) : List Nat :=
  leBytes 8 k.bucket ++ leBytes 8 k.base_key

/-- Comparator from `buckets/key.rs::<BucketedKey<u64> as Key>::compare`: the
bucket fields are decoded and compared numerically first, and on equality the
base-key fields decide. The source aborts on inputs shorter than 16 bytes
(a programmer-error contract violation); that branch is mapped to a dummy
result here and the theorems only cover 16-byte encodings. -/
def BucketedKey.compare (data1 data2 : List Nat) : Ordering :=
  if data1.length < 16 ∨ data2.length < 16 then Ordering.eq
  else
    let bucket1 := fromLe (data1.take 8)
    let bucket2 := fromLe (data2.take 8)
    match Ord.compare bucket1 bucket2 with
    | Ordering.eq =>
      Ord.compare (fromLe ((data1.drop 8).take 8)) (fromLe ((data2.drop 8).take 8))
    | o => o

/-- The wrapping Rust cast `u64 as i64` used to initialize the iterator
cursors (`start_bucket as i64` / `end_bucket as i64` in `buckets/iterator.rs`):
values below 2^63 map to themselves, larger ones to their two's-complement
negatives. -/
def i64OfU64 (n : Nat) : Int :=
  if n < 2 ^ 63 then (n : Int) else (n : Int) - 2 ^ 64

/-- The wrapping Rust cast `i64 as u64` used to read the bucket number from a
cursor (`self.front_bucket as u64` in `buckets/iterator.rs`). -/
def u64OfI64 (i : Int) : Nat := (i % 2 ^ 64).toNat

/-- A single-value bucketed table with fallible point lookups: the redb
`ReadOnlyTable<BucketedKey<u64>, V>` handle owned by the iterator, as a
function from (base key, bucket) to a possibly failing optional value. -/
abbrev BucketTable (V : Type) := Nat → Nat → Except String (Option V)

/-- Iterator state from `src/buckets/iterator.rs::BucketRangeIterator`. -/
structure BucketRangeIterator (V : Type) where
  table : BucketTable V
  base_key : Nat
  start_bucket : Nat
  end_bucket : Nat
  front_bucket : Int
  back_bucket : Int
  finished : Bool

/-- Construction from `BucketRangeIterator::new`: the range check runs before
any table access, then the covering bucket range is computed by integer
division, and the i64 cursors are initialized with the wrapping
`start_bucket as i64` / `end_bucket as i64` casts of the source. -/
def BucketRangeIterator.new {V : Type} (table : BucketTable V) (key_builder : KeyBuilder)
    (base_key start_sequence end_sequence : Nat) :
    Except BucketError (BucketRangeIterator V) :=
  if start_sequence > end_sequence then
    Except.error (BucketError.InvalidRange start_sequence end_sequence)
  else
    Except.ok ⟨table, base_key,
      start_sequence / key_builder.bucket_size, end_sequence / key_builder.bucket_size,
      i64OfU64 (start_sequence / key_builder.bucket_size),
      i64OfU64 (end_sequence / key_builder.bucket_size), false⟩

/-- Outcome of one pass over the point-lookup loop of the iterator. -/
inductive ScanStep (V : Type) where
  | exhausted (front back : Int)
  | yield (v : V) (front back : Int)
  | failed (e : String) (front back : Int)

/-- The `while front_bucket <= back_bucket` loop of `BucketRangeIterator::next`:
advance the front cursor, do a point lookup, skip empty buckets. -/
def nextLoop {V : Type} (t : BucketTable V) (bk : Nat) (front back : Int) : ScanStep V :=
  if h : front ≤ back then
    match t bk (u64OfI64 front) with
    | Except.ok (some v) => ScanStep.yield v (front + 1) back
    | Except.ok none => nextLoop t bk (front + 1) back
    | Except.error e => ScanStep.failed e (front + 1) back
  else ScanStep.exhausted front back
termination_by (back + 1 - front).toNat
decreasing_by omega

/-- The mirrored loop of `BucketRangeIterator::next_back`, advancing the back
cursor downwards. -/
def nextBackLoop {V : Type} (t : BucketTable V) (bk : Nat) (front back : Int) : ScanStep V :=
  if h : front ≤ back then
    match t bk (u64OfI64 back) with
    | Except.ok (some v) => ScanStep.yield v front (back - 1)
    | Except.ok none => nextBackLoop t bk front (back - 1)
    | Except.error e => ScanStep.failed e front (back - 1)
  else ScanStep.exhausted front back
termination_by (back + 1 - front).toNat
decreasing_by omega

/-- One `next()` call on `BucketRangeIterator`: a finished iterator yields
nothing; a lookup failure marks the iterator finished after yielding the
error; exhausting the bucket range marks it finished. -/
def BucketRangeIterator.next {V : Type} (s : BucketRangeIterator V) :
    Option (Except BucketError V) × BucketRangeIterator V :=
  if s.finished then (none, s)
  else
    match nextLoop s.table s.base_key s.front_bucket s.back_bucket with
    | ScanStep.yield v f b =>
      (some (Except.ok v), ⟨s.table, s.base_key, s.start_bucket, s.end_bucket, f, b, false⟩)
    | ScanStep.failed e f b =>
      (some (Except.error (BucketError.IterationError
          ("Database error during point lookup: " ++ e))),
       ⟨s.table, s.base_key, s.start_bucket, s.end_bucket, f, b, true⟩)
    | ScanStep.exhausted f b =>
      (none, ⟨s.table, s.base_key, s.start_bucket, s.end_bucket, f, b, true⟩)

/-- One `next_back()` call on `BucketRangeIterator`. -/
def BucketRangeIterator.next_back {V : Type} (s : BucketRangeIterator V) :
    Option (Except BucketError V) × BucketRangeIterator V :=
  if s.finished then (none, s)
  else
    match nextBackLoop s.table s.base_key s.front_bucket s.back_bucket with
    | ScanStep.yield v f b =>
      (some (Except.ok v), ⟨s.table, s.base_key, s.start_bucket, s.end_bucket, f, b, false⟩)
    | ScanStep.failed e f b =>
      (some (Except.error (BucketError.IterationError
          ("Database error during point lookup: " ++ e))),
       ⟨s.table, s.base_key, s.start_bucket, s.end_bucket, f, b, true⟩)
    | ScanStep.exhausted f b =>
      (none, ⟨s.table, s.base_key, s.start_bucket, s.end_bucket, f, b, true⟩)

/-- Repeated forward iteration (the caller-side `collect`), bounded by fuel. -/
def drainForward {V : Type} : Nat → BucketRangeIterator V → List (Except BucketError V)
  | 0, _ => []
  | fuel + 1, s =>
    match BucketRangeIterator.next s with
    | (none, _) => []
    | (some x, s') => x :: drainForward fuel s'

/-- Repeated reverse iteration (the caller-side `rev().collect`), bounded by fuel. -/
def drainBackward {V : Type} : Nat → BucketRangeIterator V → List (Except BucketError V)
  | 0, _ => []
  | fuel + 1, s =>
    match BucketRangeIterator.next_back s with
    | (none, _) => []
    | (some x, s') => x :: drainBackward fuel s'

/-- A table whose point lookups never fail, described by a plain partial map. -/
def liftTable {V : Type} (m : Nat → Nat → Option V) : BucketTable V :=
  fun bk b => Except.ok (m bk b)

/-- A multimap bucketed table: a point lookup returns the bucket's value
collection, itself a sequence of fallible reads, as in redb's
`ReadOnlyMultimapTable<BucketedKey<u64>, V>`. -/
abbrev MultimapTable (V : Type) := Nat → Nat → Except String (List (Except String V))

/-- Iterator state from `src/buckets/iterator.rs::BucketRangeMultimapIterator`. -/
structure BucketRangeMultimapIterator (V : Type) where
  table : MultimapTable V
  base_key : Nat
  start_bucket : Nat
  end_bucket : Nat
  front_bucket : Int
  back_bucket : Int
  finished : Bool
  front_values : Option (List V)
  back_values : Option (List V)

/-- Construction from `BucketRangeMultimapIterator::new`, with the same
wrapping `as i64` cursor-initialization casts as the single-value iterator. -/
def BucketRangeMultimapIterator.new {V : Type} (table : MultimapTable V)
    (key_builder : KeyBuilder) (base_key start_sequence end_sequence : Nat) :
    Except BucketError (BucketRangeMultimapIterator V) :=
  if start_sequence > end_sequence then
    Except.error (BucketError.InvalidRange start_sequence end_sequence)
  else
    Except.ok ⟨table, base_key,
      start_sequence / key_builder.bucket_size, end_sequence / key_builder.bucket_size,
      i64OfU64 (start_sequence / key_builder.bucket_size),
      i64OfU64 (end_sequence / key_builder.bucket_size), false, none, none⟩

/-- Collecting a bucket's value sequence into a buffer, stopping at the first
failing read — the `for value_result in values` loop of the source. -/
def seqValues {V : Type} : List (Except String V) → Except String (List V)
  | [] => Except.ok []
  | Except.ok v :: rest => (seqValues rest).map (fun l => v :: l)
  | Except.error e :: _ => Except.error e

/-- Outcome of one pass over the multimap iterator's lookup loop. -/
inductive MScanStep (V : Type) where
  | exhausted (front back : Int)
  | yield (v : V) (front back : Int) (buf : Option (List V))
  | failed (e : String) (front back : Int)

/-- Weight of the buffered-values state, used as a termination measure. -/
def bufWeight {V : Type} : Option (List V) → Nat
  | none => 1
  | some [] => 2
  | some (_ :: _) => 0

/-- The `loop` of `BucketRangeMultimapIterator::next`: drain the buffered
front values first, otherwise advance the front cursor, read the bucket's
collection, skip empty buckets, and buffer non-empty ones. -/
def mmNextLoop {V : Type} (t : MultimapTable V) (bk : Nat) (front back : Int)
    (buf : Option (List V)) : MScanStep V :=
  match buf with
  | some (v :: rest) => MScanStep.yield v front back (some rest)
  | some [] => mmNextLoop t bk front back none
  | none =>
    if h : front ≤ back then
      match t bk (u64OfI64 front) with
      | Except.error e => MScanStep.failed e (front + 1) back
      | Except.ok items =>
        match seqValues items with
        | Except.error e => MScanStep.failed e (front + 1) back
        | Except.ok vals =>
          if vals.isEmpty then mmNextLoop t bk (front + 1) back none
          else mmNextLoop t bk (front + 1) back (some vals)
    else MScanStep.exhausted front back
termination_by 2 * (back + 1 - front).toNat + bufWeight buf
decreasing_by
  · simp [bufWeight]
  · simp [bufWeight]; omega
  · cases vals with
    | nil => simp [bufWeight]; omega
    | cons v rest => simp [bufWeight]; omega

/-- The `loop` of `BucketRangeMultimapIterator::next_back`: drain the buffered
back values from their back end first, otherwise advance the back cursor
downwards. -/
def mmNextBackLoop {V : Type} (t : MultimapTable V) (bk : Nat) (front back : Int)
    (buf : Option (List V)) : MScanStep V :=
  match buf with
  | some (v :: rest) =>
    MScanStep.yield ((v :: rest).getLast (by simp)) front back
      (some ((v :: rest).dropLast))
  | some [] => mmNextBackLoop t bk front back none
  | none =>
    if h : front ≤ back then
      match t bk (u64OfI64 back) with
      | Except.error e => MScanStep.failed e front (back - 1)
      | Except.ok items =>
        match seqValues items with
        | Except.error e => MScanStep.failed e front (back - 1)
        | Except.ok vals =>
          if vals.isEmpty then mmNextBackLoop t bk front (back - 1) none
          else mmNextBackLoop t bk front (back - 1) (some vals)
    else MScanStep.exhausted front back
termination_by 2 * (back + 1 - front).toNat + bufWeight buf
decreasing_by
  · simp [bufWeight]
  · simp [bufWeight]; omega
  · cases vals with
    | nil => simp [bufWeight]; omega
    | cons v rest => simp [bufWeight]; omega

/-- One `next()` call on `BucketRangeMultimapIterator`: a finished iterator
yields nothing; a failing read marks the iterator finished after yielding the
error; exhausting the range marks it finished. -/
def BucketRangeMultimapIterator.next {V : Type} (s : BucketRangeMultimapIterator V) :
    Option (Except BucketError V) × BucketRangeMultimapIterator V :=
  if s.finished then (none, s)
  else
    match mmNextLoop s.table s.base_key s.front_bucket s.back_bucket s.front_values with
    | MScanStep.yield v f b buf =>
      (some (Except.ok v),
       ⟨s.table, s.base_key, s.start_bucket, s.end_bucket, f, b, false, buf, s.back_values⟩)
    | MScanStep.failed e f b =>
      (some (Except.error (BucketError.IterationError
          ("Database error during point lookup: " ++ e))),
       ⟨s.table, s.base_key, s.start_bucket, s.end_bucket, f, b, true, none, s.back_values⟩)
    | MScanStep.exhausted f b =>
      (none,
       ⟨s.table, s.base_key, s.start_bucket, s.end_bucket, f, b, true, none, s.back_values⟩)

/-- One `next_back()` call on `BucketRangeMultimapIterator`. -/
def BucketRangeMultimapIterator.next_back {V : Type} (s : BucketRangeMultimapIterator V) :
    Option (Except BucketError V) × BucketRangeMultimapIterator V :=
  if s.finished then (none, s)
  else
    match mmNextBackLoop s.table s.base_key s.front_bucket s.back_bucket s.back_values with
    | MScanStep.yield v f b buf =>
      (some (Except.ok v),
       ⟨s.table, s.base_key, s.start_bucket, s.end_bucket, f, b, false, s.front_values, buf⟩)
    | MScanStep.failed e f b =>
      (some (Except.error (BucketError.IterationError
          ("Database error during point lookup: " ++ e))),
       ⟨s.table, s.base_key, s.start_bucket, s.end_bucket, f, b, true, s.front_values, none⟩)
    | MScanStep.exhausted f b =>
      (none,
       ⟨s.table, s.base_key, s.start_bucket, s.end_bucket, f, b, true, s.front_values, none⟩)

/-- Fixture: the bucketed table of the spec's range-iteration scenario,
holding values at sequences 50, 150, 250 for base key 123 (buckets 0, 1, 2
under bucket_size 100) and values in buckets 0, 1 for base key 456. -/
def exBucketMap : Nat → Nat → Option Nat := fun bk b =>
  if bk = 123 then
    (if b = 0 then some 50 else if b = 1 then some 150 else if b = 2 then some 250 else none)
  else if bk = 456 then
    (if b = 0 then some 9950 else if b = 1 then some 9150 else none)
  else none

/-- Fixture: a bucketed table holding the single value 77 at
(base key 1, bucket 0). -/
def c4CexMap : Nat → Nat → Option Nat := fun bk b =>
  if bk = 1 ∧ b = 0 then some 77 else none

/-- Fixture: the iterator the source builds for base key 1 over sequences
0..2^63 with bucket_size 1: the end bucket is 2^63, so the back cursor wraps
to the negative i64 minimum. -/
def c4CexIter : BucketRangeIterator Nat :=
  ⟨liftTable c4CexMap, 1, 0, 2 ^ 63, i64OfU64 0, i64OfU64 (2 ^ 63), false⟩

/-- Fixture: a table whose every point lookup fails. -/
def errTable : BucketTable Nat := fun _ _ => Except.error ("boom")

/-- Fixture: a fresh single-value iterator over the failing table. -/
def sErrIter : BucketRangeIterator Nat := ⟨errTable, 1, 0, 0, 0, 0, false⟩

/-- Fixture: the iterator state after the failing lookup was reported. -/
def sErrDone : BucketRangeIterator Nat := ⟨errTable, 1, 0, 0, 1, 0, true⟩

/-- Fixture: a multimap table whose every point lookup fails. -/
def mmErrTable : MultimapTable Nat := fun _ _ => Except.error ("boom")

/-- Fixture: a fresh multimap iterator over the failing multimap table. -/
def mErrIter : BucketRangeMultimapIterator Nat :=
  ⟨mmErrTable, 1, 0, 0, 0, 0, false, none, none⟩

/-- Fixture: the multimap iterator state after the failing lookup was reported. -/
def mErrDone : BucketRangeMultimapIterator Nat :=
  ⟨mmErrTable, 1, 0, 0, 1, 0, true, none, none⟩

/-- A generic redb table over `u64` keys: an association list kept sorted in
numeric key order, as used by the table-bucket consolidation utility. -/
abbrev KVTable (V : Type) := List (Nat × V)

/-- Point lookup in a `u64`-keyed table. -/
def kvGet {V : Type} (t : KVTable V) (k : Nat) : Option V :=
  match t with
  | [] => none
  | e :: rest => if e.fst = k then some e.snd else kvGet rest k

/-- Insert (or overwrite) a key in a `u64`-keyed table, keeping key order. -/
def kvInsert {V : Type} (t : KVTable V) (k : Nat) (v : V) : KVTable V :=
  match t with
  | [] => [(k, v)]
  | e :: rest =>
    if e.fst = k then (k, v) :: rest
    else if k < e.fst then (k, v) :: e :: rest
    else e :: kvInsert rest k v

/-- The database state visible to `TableBucketBuilder::merge`: the bucket
tables, indexed by their parsed bucket number (the `table_prefix` naming and
the name-interning cache of `table_buckets/mod.rs` reduce to this index,
since `bucket_table_name` and the numeric-suffix parse of
`bucket_range_from_tables` are mutually inverse), plus the target table. -/
structure TableBucketState (V : Type) where
  buckets : List (Nat × KVTable V)
  target : KVTable V
deriving DecidableEq

/-- Lookup of a bucket table by bucket number. -/
def bGet {V : Type} (l : List (Nat × KVTable V)) (b : Nat) : Option (KVTable V) :=
  match l with
  | [] => none
  | e :: rest => if e.fst = b then some e.snd else bGet rest b

/-- Deletion of a bucket table (`delete_table` in the source). -/
def bDel {V : Type} (l : List (Nat × KVTable V)) (b : Nat) : List (Nat × KVTable V) :=
  l.filter (fun e => e.fst != b)

/-- The inner loop of `TableBucketBuilder::merge`: every (key, value) pair of
a bucket table is folded into the target as
merged = mergeFn (existing value at the key, incoming value). -/
def drainBucketInto {V : Type} (mergeFn : Option V → V → V) (bt : KVTable V)
    (tgt : KVTable V) : KVTable V :=
  bt.foldl (fun t kv => kvInsert t kv.fst (mergeFn (kvGet t kv.fst) kv.snd)) tgt

/-- Consolidation from `table_buckets/mod.rs::TableBucketBuilder::merge`: an
invalid range is rejected first; then, for each bucket in the inclusive
range that appears in the snapshot of existing tables, its pairs are merged
into the target and the bucket table is deleted; missing buckets are
silently skipped. The caller-supplied `MergeableValue::merge` law is the
parameter `mergeFn`. -/
def TableBucketBuilder.merge {V : Type} (mergeFn : Option V → V → V)
    (st : TableBucketState V) (start_bucket end_bucket : Nat) :
    Except BucketError (TableBucketState V) :=
  if start_bucket > end_bucket then
    Except.error (BucketError.InvalidRange start_bucket end_bucket)
  else
    Except.ok ((List.range' start_bucket (end_bucket - start_bucket + 1)).foldl
      (fun acc b =>
        if b ∈ st.buckets.map Prod.fst then
          match bGet acc.buckets b with
          | some bt => ⟨bDel acc.buckets b, drainBucketInto mergeFn bt acc.target⟩
          | none => ⟨bDel acc.buckets b, acc.target⟩
        else acc) st)

/-- Bucket discovery from `bucket_range_from_tables`: the minimum and maximum
bucket number among the existing bucket tables, `none` when there are none. -/
def bucket_range_from_tables {V : Type} (st : TableBucketState V) : Option (Nat × Nat) :=
  st.buckets.foldl
    (fun acc e =>
      match acc with
      | none => some (e.fst, e.fst)
      | some p => some (min p.fst e.fst, max p.snd e.fst)) none

/-- Consolidation of every discovered bucket, from
`TableBucketBuilder::merge_all`: a no-op when no bucket table exists. -/
def TableBucketBuilder.merge_all {V : Type} (mergeFn : Option V → V → V)
    (st : TableBucketState V) : Except BucketError (TableBucketState V) :=
  match bucket_range_from_tables st with
  | none => Except.ok st
  | some p => TableBucketBuilder.merge mergeFn st p.fst p.snd

/-- The concatenation merge law of the source's consolidation test
(`impl MergeableValue for String`). -/
def concatMerge : Option String → String → String := fun ex inc =>
  match ex with
  | some e => e ++ "+" ++ inc
  | none => inc

/-- Fixture: bucket table 0 holding 1 -> a and 2 -> x, bucket table 1 holding
1 -> b, and an empty target. -/
def c6State : TableBucketState String :=
  ⟨[(0, [(1, "a"), (2, "x")]), (1, [(1, "b")])], []⟩

/-- Errors of the database copy utility, from `src/dbcopy/mod.rs`. -/
inductive DbCopyError where
  | DestinationTablesExist (names : List String)
  | DestinationCheckFailed (msg : String)
  | SourceTableOpenFailed (msg : String)
  | DestinationTableOpenFailed (msg : String)
  | TableCopyFailed (msg : String)
  | TransactionFailed (msg : String)
  | CommitFailed (msg : String)
deriving DecidableEq

/-- A whole database as seen by the copy utility: named tables of rows. -/
abbrev CopyDB := List (String × List (Nat × Nat))

/-- Lookup of a table by name; `none` models `TableError::TableDoesNotExist`. -/
def dbGet (db : CopyDB) (n : String) : Option (List (Nat × Nat)) :=
  match db with
  | [] => none
  | e :: rest => if e.fst = n then some e.snd else dbGet rest n

/-- Store a table under a name, replacing any previous contents. -/
def dbSet (db : CopyDB) (n : String) (rows : List (Nat × Nat)) : CopyDB :=
  match db with
  | [] => [(n, rows)]
  | e :: rest => if e.fst = n then (n, rows) :: rest else e :: dbSet rest n rows

/-- The two step kinds of a copy plan (`CopyKind` in the source). -/
inductive CopyKind where
  | table
  | multimap
deriving DecidableEq

/-- Display name of a copy kind (`Display for CopyKind`). -/
def CopyKind.display : CopyKind → String
  | CopyKind.table => "table"
  | CopyKind.multimap => "multimap table"

/-- One planned table of a copy plan (`TablePlan` / `MultimapPlan`). -/
structure CopyStep where
  kind : CopyKind
  name : String
deriving DecidableEq

/-- Display name from `CopyStep::display_name`. -/
def displayName (st : CopyStep) : String :=
  st.kind.display ++ " " ++ st.name

/-- Pre-flight check from `TablePlan::preflight` / `MultimapPlan::preflight`:
opening the destination table succeeds exactly when it exists. -/
def preflight (destination : CopyDB) (st : CopyStep) : Bool :=
  (dbGet destination st.name).isSome

/-- One copy step from `TablePlan::copy`: open the source table (an error if
it does not exist), then insert every row into the freshly created
destination table. -/
def copyStep (source : CopyDB) (db : CopyDB) (st : CopyStep) : Except DbCopyError CopyDB :=
  match dbGet source st.name with
  | none => Except.error (DbCopyError.SourceTableOpenFailed (displayName st))
  | some rows => Except.ok (dbSet db st.name rows)

/-- The copy orchestration from `dbcopy/mod.rs::copy_database`: all pre-flight
checks run over the destination snapshot first and every conflict is
collected; only when no conflict exists does the write transaction start,
and a failing copy step aborts the uncommitted transaction, leaving the
destination unchanged. The returned pair is (resulting destination state,
outcome). -/
def copy_database (source destination : CopyDB) (plan : List CopyStep) :
    CopyDB × Except DbCopyError Unit :=
  let conflicts := (plan.filter (fun st => preflight destination st)).map displayName
  if conflicts = [] then
    match plan.foldlM (fun db st => copyStep source db st) destination with
    | Except.ok d => (d, Except.ok ())
    | Except.error e => (destination, Except.error e)
  else (destination, Except.error (DbCopyError.DestinationTablesExist conflicts))

/-- Fixture: a destination database whose table t1 already has a row. -/
def c7Dest : CopyDB := [("t1", [(1, 2)])]

/-- Fixture: a copy plan over tables t1 and t2. -/
def c7Plan : List CopyStep := [⟨CopyKind.table, "t1"⟩, ⟨CopyKind.table, "t2"⟩]

/-- Errors of the roaring layer, from `src/error.rs`. -/
inductive RoaringError where
  | SerializationFailed (msg : String)
  | CompactionFailed (msg : String)
  | InvalidBitmap (msg : String)
  | SizeQueryFailed (msg : String)
deriving DecidableEq

/-- The bitmap value wrapper from `roaring/value.rs::RoaringValue`; the
external `RoaringTreemap` type is the parameter `B`. -/
structure RoaringValue (B : Type) where
  bitmap : B
deriving DecidableEq

/-- Decoding from `RoaringValue::decode`: empty input and any version byte
other than 1 are rejected, and a failing bitmap deserialization (the external
`RoaringTreemap::deserialize_from`, passed as `deserialize`) is wrapped in a
SerializationFailed error. -/
def RoaringValue.decode {B : Type} (deserialize : List Nat → Except String B)
    (data : List Nat) : Except RoaringError (RoaringValue B) :=
  match data with
  | [] => Except.error (RoaringError.InvalidBitmap ("Empty data"))
  | version :: bitmap_bytes =>
    if version ≠ 1 then
      Except.error (RoaringError.InvalidBitmap ("Unsupported version: " ++ toString version))
    else
      match deserialize bitmap_bytes with
      | Except.error e => Except.error (RoaringError.SerializationFailed e)
      | Except.ok bm => Except.ok ⟨bm⟩

/-- The redb `Value::from_bytes` implementation for RoaringValue: any decode
failure is silently replaced by the empty bitmap (`RoaringValue::empty`,
whose underlying `RoaringTreemap::new()` is the parameter `empty`). -/
def RoaringValue.from_bytes {B : Type} (empty : B)
    (deserialize : List Nat → Except String B) (data : List Nat) : RoaringValue B :=
  match RoaringValue.decode deserialize data with
  | Except.ok v => v
  | Except.error _ => ⟨empty⟩

/-- Fixture: a stand-in bitmap deserializer accepting only the payload 0x00. -/
def exDeser : List Nat → Except String Nat := fun l =>
  if l = [0] then Except.ok 7 else Except.error ("bad")

/-- Inserting under one key leaves every other key's stored bytes unchanged. -/
theorem tblGet_tblInsert_ne (t : SegTable) (k k' v : List Nat) (hne : k ≠ k') :
    tblGet (tblInsert t k v) k' = tblGet t k' := by
  induction t with
  | nil => simp [tblInsert, tblGet, hne]
  | cons e rest ih =>
    simp only [tblInsert]
    by_cases h1 : e.fst = k
    · simp [tblGet, hne, h1]
    · by_cases h2 : lexLt k e.fst
      · simp [tblGet, hne, h2, h1]
      · simp [tblGet, h2, h1, ih]

/-- Two segment keys for the same base key and shard differ whenever their
segment ids differ below 2^16. -/
theorem encode_segment_key_ne_of_segment_ne (key : List Nat) (shard a b : Nat)
    (ha : a < 65536) (hb : b < 65536) (hab : a ≠ b) :
    encode_segment_key key shard a ≠ encode_segment_key key shard b := by
  intro h
  apply hab
  unfold encode_segment_key at h
  have h2 : beBytes 2 a = beBytes 2 b := List.append_cancel_left h
  have h3 : [a / 256 % 256, a % 256] = [b / 256 % 256, b % 256] := h2
  simp only [List.cons.injEq, and_true] at h3
  omega

/-- C1 (amended): for every base key, shard and new value written through
update_head_segment when a head segment with id h already exists: if the new
value's size is at most segment_max_bytes the head segment is overwritten in
place and (rolled = false, h) is returned; if the size exceeds
segment_max_bytes and h < 65535, the value is written to segment h + 1,
(rolled = true, h + 1) is returned, and the previous head segment's stored
bytes are left unchanged. -/
theorem update_head_segment_rolling_policy
    (cfg : PartitionConfig) (db : DbState) (key : List Nat) (shard : Nat)
    (data : List Nat) (h : Nat)
    (hhead : find_head_segment db.seg key shard = Except.ok (some h)) :
    (data.length ≤ cfg.segment_max_bytes →
      update_head_segment cfg db key shard data =
        Except.ok ((false, h),
          ⟨tblInsert db.seg (encode_segment_key key shard h) data, db.meta⟩)) ∧
    (cfg.segment_max_bytes < data.length → h < 65535 →
      update_head_segment cfg db key shard data =
        Except.ok ((true, h + 1),
          ⟨tblInsert db.seg (encode_segment_key key shard (h + 1)) data, db.meta⟩) ∧
      tblGet (tblInsert db.seg (encode_segment_key key shard (h + 1)) data)
          (encode_segment_key key shard h) =
        tblGet db.seg (encode_segment_key key shard h)) := by
  constructor
  · intro hle
    simp only [update_head_segment, hhead]
    simp [hle]
  · intro hgt hlt
    have hnr : ¬ data.length ≤ cfg.segment_max_bytes := by omega
    have hmod : (h + 1) % 65536 = h + 1 := Nat.mod_eq_of_lt (by omega)
    refine ⟨?_, ?_⟩
    · simp only [update_head_segment, hhead]
      simp [hnr, hmod]
    · exact tblGet_tblInsert_ne _ _ _ _
        (encode_segment_key_ne_of_segment_ne key shard (h + 1) h (by omega) (by omega)
          (by omega))

/-- C1 witness: on a table whose head segment for key 0x02, shard 0 is id 3,
with segment_max_bytes = 1, a 1-byte value overwrites segment 3 in place and a
2-byte value rolls to segment 4, leaving segment 3's bytes unchanged. -/
theorem update_head_segment_rolling_policy_witness :
    (([5] : List Nat).length ≤ (1 : Nat) ∧
      update_head_segment ⟨1, 1, false⟩ wDb [2] 0 [5] =
        Except.ok ((false, 3),
          ⟨tblInsert wDb.seg (encode_segment_key [2] 0 3) [5], wDb.meta⟩)) ∧
    ((1 : Nat) < ([5, 6] : List Nat).length ∧ (3 : Nat) < 65535 ∧
      (update_head_segment ⟨1, 1, false⟩ wDb [2] 0 [5, 6] =
        Except.ok ((true, 4),
          ⟨tblInsert wDb.seg (encode_segment_key [2] 0 4) [5, 6], wDb.meta⟩) ∧
       tblGet (tblInsert wDb.seg (encode_segment_key [2] 0 4) [5, 6])
          (encode_segment_key [2] 0 3) =
        tblGet wDb.seg (encode_segment_key [2] 0 3))) :=
  ⟨⟨by decide,
    (update_head_segment_rolling_policy ⟨1, 1, false⟩ wDb [2] 0 [5] 3 (by decide)).1
      (by decide)⟩,
   by decide, by decide,
   (update_head_segment_rolling_policy ⟨1, 1, false⟩ wDb [2] 0 [5, 6] 3 (by decide)).2
     (by decide) (by decide)⟩

/-- C1 counterexample: with a head segment id of 65535 and an oversized value,
the code returns (rolled = true, segment 0): the value goes to segment 0, not
to head + 1 = 65536, so the claim's unconditional roll contract fails. -/
theorem update_head_segment_roll_wraps_at_max_head :
    find_head_segment c1Db.seg [1] 0 = Except.ok (some 65535) ∧
    (update_head_segment ⟨1, 1, false⟩ c1Db [1] 0 [7, 7]).map Prod.fst =
      Except.ok (true, 0) ∧
    (0 : Nat) ≠ 65535 + 1 := by
  exact ⟨by decide, by decide, by decide⟩

/-- C2: at segment-id exhaustion (head segment 65535, value larger than
segment_max_bytes) the code returns Ok((true, 0)): no SegmentScanFailed-class
error is produced, and under release-build semantics the segment id silently
wraps around to 0. -/
theorem update_head_segment_exhaustion_returns_ok :
    (update_head_segment ⟨2, 2, false⟩ c2Db [2] 1 [7, 7, 7]).map Prod.fst =
      Except.ok (true, 0) := by
  decide

/-- C3: with use_meta enabled, update_head_segment neither reads nor writes
the meta table: its outcome is independent of the meta table's contents (head
discovery is the prefix scan, not a point read of the MetaKey), and the meta
table is left unchanged whenever a segment is created or rolled. -/
theorem update_head_segment_ignores_meta_table
    (cfg : PartitionConfig) (db : DbState) (key : List Nat) (shard : Nat)
    (data : List Nat) (hm : cfg.use_meta = true) :
    (∀ m : SegTable,
       (update_head_segment cfg ⟨db.seg, m⟩ key shard data).map Prod.fst =
       (update_head_segment cfg db key shard data).map Prod.fst) ∧
    (∀ r db', update_head_segment cfg db key shard data = Except.ok (r, db') →
       db'.meta = db.meta) := by
  constructor
  · intro m
    simp only [update_head_segment]
    cases hf : find_head_segment db.seg key shard with
    | error e => simp
    | ok head =>
      cases head with
      | some sid =>
        by_cases hle : data.length ≤ cfg.segment_max_bytes <;> simp [hle, Except.map]
      | none => simp [Except.map]
  · intro r db' hok
    simp only [update_head_segment] at hok
    cases hf : find_head_segment db.seg key shard with
    | error e => rw [hf] at hok; simp at hok
    | ok head =>
      rw [hf] at hok
      cases head with
      | some sid =>
        by_cases hle : data.length ≤ cfg.segment_max_bytes
        · simp [hle] at hok
          rw [← hok.2]
        · simp [hle] at hok
          rw [← hok.2]
      | none =>
        simp at hok
        rw [← hok.2]

/-- C3 witness: a concrete configuration with use_meta = true, where the write
outcome ignores a populated meta table and leaves it untouched. -/
theorem update_head_segment_ignores_meta_table_witness :
    (⟨1, 8, true⟩ : PartitionConfig).use_meta = true ∧
    (update_head_segment ⟨1, 8, true⟩ ⟨[], [([9], [9])]⟩ [3] 0 [1]).map Prod.fst =
      (update_head_segment ⟨1, 8, true⟩ ⟨[], []⟩ [3] 0 [1]).map Prod.fst ∧
    DbState.meta ⟨tblInsert [] (encode_segment_key [3] 0 0) [1], []⟩ = [] :=
  ⟨rfl,
   (update_head_segment_ignores_meta_table ⟨1, 8, true⟩ ⟨[], []⟩ [3] 0 [1] rfl).1
     [([9], [9])],
   (update_head_segment_ignores_meta_table ⟨1, 8, true⟩ ⟨[], []⟩ [3] 0 [1] rfl).2
     (true, 0) ⟨tblInsert [] (encode_segment_key [3] 0 0) [1], []⟩ (by decide)⟩

/-- C8: select_shard is total and deterministic: the same inputs always give
the same result; with a positive shard count it returns Ok with a shard below
shard_count; with shard_count = 0 it returns the InvalidShardCount error and
never panics or silently returns 0. -/
theorem select_shard_total_and_guarded (hash : List Nat → Nat)
    (base_key : List Nat) (element_id shard_count : Nat) :
    (select_shard hash base_key element_id shard_count =
      select_shard hash base_key element_id shard_count) ∧
    (0 < shard_count →
      ∃ s, select_shard hash base_key element_id shard_count = Except.ok s ∧
        s < shard_count) ∧
    (shard_count = 0 →
      select_shard hash base_key element_id shard_count =
        Except.error (PartitionError.InvalidShardCount shard_count)) := by
  refine ⟨rfl, ?_, ?_⟩
  · intro hpos
    have hne : shard_count ≠ 0 := by omega
    refine ⟨Nat.xor (hash (beBytes 8 element_id)) (hash base_key) % shard_count,
      ?_, Nat.mod_lt _ hpos⟩
    simp [select_shard, hne]
  · intro h0
    simp [select_shard, h0]

/-- C8 witness: concrete shard selections with a stand-in hash: 16 shards give
a shard below 16, and 0 shards give the InvalidShardCount error. -/
theorem select_shard_total_and_guarded_witness :
    (0 < 16 ∧
      ∃ s, select_shard exHash [1, 2] 5 16 = Except.ok s ∧ s < 16) ∧
    ((0 : Nat) = 0 ∧
      select_shard exHash [1, 2] 5 0 =
        Except.error (PartitionError.InvalidShardCount 0)) :=
  ⟨⟨by decide, (select_shard_total_and_guarded exHash [1, 2] 5 16).2.1 (by decide)⟩,
   rfl, (select_shard_total_and_guarded exHash [1, 2] 5 0).2.2 rfl⟩

/-- The fixed-width little-endian encoding always has the declared width. -/
theorem leBytes_length (w n : Nat) : (leBytes w n).length = w := by
  induction w generalizing n with
  | zero => simp [leBytes]
  | succ k ih => simp [leBytes, ih]

/-- Decoding the fixed-width little-endian encoding recovers the value
modulo 256 to the width. -/
theorem fromLe_leBytes (w n : Nat) : fromLe (leBytes w n) = n % 256 ^ w := by
  induction w generalizing n with
  | zero => simp [leBytes, fromLe]; omega
  | succ k ih =>
    have hstep : fromLe (leBytes (k + 1) n) = fromLe (leBytes k (n / 256)) * 256 + n % 256 := rfl
    rw [hstep, ih]
    rw [pow_succ, Nat.mul_comm (256 ^ k) 256, Nat.mod_mul]
    omega

/-- Bucketed-key encodings are exactly 16 bytes. -/
theorem as_bytes_length (k : BucketedKey) : k.as_bytes.length = 16 := by
  simp [BucketedKey.as_bytes, leBytes_length]

/-- C5: for every pair of 16-byte encoded BucketedKey values (fields in u64
range), the comparator returns the numeric ordering of the pair
(bucket, base_key): buckets compare as numbers first, and on equality the
base keys decide. -/
theorem bucketed_key_compare_numeric (k1 k2 : BucketedKey)
    (h1 : k1.bucket < 2 ^ 64) (h2 : k2.bucket < 2 ^ 64)
    (h3 : k1.base_key < 2 ^ 64) (h4 : k2.base_key < 2 ^ 64) :
    BucketedKey.compare k1.as_bytes k2.as_bytes =
      (match Ord.compare k1.bucket k2.bucket with
       | Ordering.eq => Ord.compare k1.base_key k2.base_key
       | o => o) := by
  have e64 : (256 : Nat) ^ 8 = 2 ^ 64 := by norm_num
  have htake : ∀ k : BucketedKey, k.bucket < 2 ^ 64 → fromLe (k.as_bytes.take 8) = k.bucket := by
    intro k hk
    rw [BucketedKey.as_bytes, List.take_left' (leBytes_length 8 k.bucket),
      fromLe_leBytes, e64, Nat.mod_eq_of_lt hk]
  have hdrop : ∀ k : BucketedKey, k.base_key < 2 ^ 64 →
      fromLe ((k.as_bytes.drop 8).take 8) = k.base_key := by
    intro k hk
    rw [BucketedKey.as_bytes, List.drop_left' (leBytes_length 8 k.bucket)]
    rw [List.take_of_length_le (by rw [leBytes_length])]
    rw [fromLe_leBytes, e64, Nat.mod_eq_of_lt hk]
  have hc : ¬(k1.as_bytes.length < 16 ∨ k2.as_bytes.length < 16) := by
    simp [as_bytes_length]
  simp only [BucketedKey.compare]
  rw [if_neg hc, htake k1 h1, htake k2 h2, hdrop k1 h3, hdrop k2 h4]

/-- C5 witness: bucket 0 sorts below bucket 1 for the same base key, and with
equal buckets base key 123 sorts below base key 456. -/
theorem bucketed_key_compare_numeric_witness :
    ((123 : Nat) < 2 ^ 64 ∧ (0 : Nat) < 2 ^ 64 ∧ (1 : Nat) < 2 ^ 64 ∧
      BucketedKey.compare (BucketedKey.as_bytes ⟨123, 0⟩) (BucketedKey.as_bytes ⟨123, 1⟩) =
        Ordering.lt) ∧
    ((456 : Nat) < 2 ^ 64 ∧ (5 : Nat) < 2 ^ 64 ∧
      BucketedKey.compare (BucketedKey.as_bytes ⟨123, 5⟩) (BucketedKey.as_bytes ⟨456, 5⟩) =
        Ordering.lt) :=
  ⟨⟨by norm_num, by norm_num, by norm_num,
    (bucketed_key_compare_numeric ⟨123, 0⟩ ⟨123, 1⟩ (by norm_num) (by norm_num)
      (by norm_num) (by norm_num)).trans (by decide)⟩,
   by norm_num, by norm_num,
   (bucketed_key_compare_numeric ⟨123, 5⟩ ⟨456, 5⟩ (by norm_num) (by norm_num)
      (by norm_num) (by norm_num)).trans (by decide)⟩

/-- Forward iteration over an error-free table yields exactly the stored
values of the covering buckets, in bucket order, skipping empty buckets. -/
theorem drainForward_lift {V : Type} (m : Nat → Nat → Option V) (bk sb eb : Nat)
    (k : Nat) :
    ∀ front back : Int, ∀ fuel : Nat,
      0 ≤ front → back < 2 ^ 64 → (back + 1 - front).toNat = k → k < fuel →
      drainForward fuel ⟨liftTable m, bk, sb, eb, front, back, false⟩ =
        ((List.range' front.toNat k).filterMap (m bk)).map Except.ok := by
  induction k using Nat.strong_induction_on with
  | _ k ih =>
    intro front back fuel hfr hb64 hk hfuel
    cases fuel with
    | zero => omega
    | succ n =>
      by_cases hfb : front ≤ back
      · obtain ⟨j, rfl⟩ : ∃ j, k = j + 1 := ⟨k - 1, by omega⟩
        have hto : (front + 1).toNat = front.toNat + 1 := by omega
        have hu : u64OfI64 front = front.toNat := by
          unfold u64OfI64; rw [Int.emod_eq_of_lt hfr (by omega)]
        cases hm : m bk front.toNat with
        | some v =>
          have hloop : nextLoop (liftTable m) bk front back =
              ScanStep.yield v (front + 1) back := by
            rw [nextLoop]; simp [hfb, liftTable, hu, hm]
          have hnext : BucketRangeIterator.next ⟨liftTable m, bk, sb, eb, front, back, false⟩ =
              (some (Except.ok v), ⟨liftTable m, bk, sb, eb, front + 1, back, false⟩) := by
            simp [BucketRangeIterator.next, hloop]
          simp only [drainForward, hnext]
          rw [ih j (by omega) (front + 1) back n (by omega) hb64 (by omega) (by omega)]
          simp [List.range'_succ, List.filterMap_cons, hm, hto]
        | none =>
          have hloop : nextLoop (liftTable m) bk front back =
              nextLoop (liftTable m) bk (front + 1) back := by
            conv_lhs => rw [nextLoop]
            simp [hfb, liftTable, hu, hm]
          have hstep : BucketRangeIterator.next ⟨liftTable m, bk, sb, eb, front, back, false⟩ =
              BucketRangeIterator.next ⟨liftTable m, bk, sb, eb, front + 1, back, false⟩ := by
            simp [BucketRangeIterator.next, hloop]
          have hdrain : drainForward (n + 1) ⟨liftTable m, bk, sb, eb, front, back, false⟩ =
              drainForward (n + 1) ⟨liftTable m, bk, sb, eb, front + 1, back, false⟩ := by
            conv_lhs => rw [drainForward]
            conv_rhs => rw [drainForward]
            rw [hstep]
          rw [hdrain, ih j (by omega) (front + 1) back (n + 1) (by omega) hb64 (by omega)
            (by omega)]
          simp [List.range'_succ, List.filterMap_cons, hm, hto]
      · have hk0 : k = 0 := by omega
        have hloop : nextLoop (liftTable m) bk front back = ScanStep.exhausted front back := by
          rw [nextLoop]; simp [hfb]
        have hnext : BucketRangeIterator.next ⟨liftTable m, bk, sb, eb, front, back, false⟩ =
            (none, ⟨liftTable m, bk, sb, eb, front, back, true⟩) := by
          simp [BucketRangeIterator.next, hloop]
        simp [drainForward, hnext, hk0]

/-- Reverse iteration over an error-free table yields the exact mirror of the
forward sequence. -/
theorem drainBackward_lift {V : Type} (m : Nat → Nat → Option V) (bk sb eb : Nat)
    (k : Nat) :
    ∀ front back : Int, ∀ fuel : Nat,
      0 ≤ front → back < 2 ^ 64 → (back + 1 - front).toNat = k → k < fuel →
      drainBackward fuel ⟨liftTable m, bk, sb, eb, front, back, false⟩ =
        (((List.range' front.toNat k).filterMap (m bk)).reverse).map Except.ok := by
  induction k using Nat.strong_induction_on with
  | _ k ih =>
    intro front back fuel hfr hb64 hk hfuel
    cases fuel with
    | zero => omega
    | succ n =>
      by_cases hfb : front ≤ back
      · obtain ⟨j, rfl⟩ : ∃ j, k = j + 1 := ⟨k - 1, by omega⟩
        have hbto : back.toNat = front.toNat + j := by omega
        have hu : u64OfI64 back = back.toNat := by
          unfold u64OfI64; rw [Int.emod_eq_of_lt (by omega) (by omega)]
        cases hm : m bk back.toNat with
        | some v =>
          have hmb : m bk (front.toNat + j) = some v := by rw [← hbto]; exact hm
          have hloop : nextBackLoop (liftTable m) bk front back =
              ScanStep.yield v front (back - 1) := by
            rw [nextBackLoop]; simp [hfb, liftTable, hu, hm]
          have hnext : BucketRangeIterator.next_back
                ⟨liftTable m, bk, sb, eb, front, back, false⟩ =
              (some (Except.ok v), ⟨liftTable m, bk, sb, eb, front, back - 1, false⟩) := by
            simp [BucketRangeIterator.next_back, hloop]
          simp only [drainBackward, hnext]
          rw [ih j (by omega) front (back - 1) n (by omega) (by omega) (by omega) (by omega)]
          rw [List.range'_1_concat]
          simp [List.filterMap_append, hmb]
        | none =>
          have hmb : m bk (front.toNat + j) = none := by rw [← hbto]; exact hm
          have hloop : nextBackLoop (liftTable m) bk front back =
              nextBackLoop (liftTable m) bk front (back - 1) := by
            conv_lhs => rw [nextBackLoop]
            simp [hfb, liftTable, hu, hm]
          have hstep : BucketRangeIterator.next_back
                ⟨liftTable m, bk, sb, eb, front, back, false⟩ =
              BucketRangeIterator.next_back
                ⟨liftTable m, bk, sb, eb, front, back - 1, false⟩ := by
            simp [BucketRangeIterator.next_back, hloop]
          have hdrain : drainBackward (n + 1) ⟨liftTable m, bk, sb, eb, front, back, false⟩ =
              drainBackward (n + 1) ⟨liftTable m, bk, sb, eb, front, back - 1, false⟩ := by
            conv_lhs => rw [drainBackward]
            conv_rhs => rw [drainBackward]
            rw [hstep]
          rw [hdrain, ih j (by omega) front (back - 1) (n + 1) (by omega) (by omega) (by omega)
            (by omega)]
          rw [List.range'_1_concat]
          simp [List.filterMap_append, hmb]
      · have hk0 : k = 0 := by omega
        have hloop : nextBackLoop (liftTable m) bk front back =
            ScanStep.exhausted front back := by
          rw [nextBackLoop]; simp [hfb]
        have hnext : BucketRangeIterator.next_back
              ⟨liftTable m, bk, sb, eb, front, back, false⟩ =
            (none, ⟨liftTable m, bk, sb, eb, front, back, true⟩) := by
          simp [BucketRangeIterator.next_back, hloop]
        simp [drainBackward, hnext, hk0]

/-- C4 (amended): construction fails with InvalidRange exactly when the start
sequence exceeds the end sequence (for any table, before any lookup); on an
error-free table, provided the end bucket end_sequence / bucket_size is below
2^63 (so the wrapping `as i64` cursor casts are value-preserving), forward
iteration yields exactly the values stored under the base key for the
covering buckets in bucket order (skipping empty buckets), and reverse
iteration yields the exact mirror — values of other base keys never appear,
the yield list being exactly the base key's stored values. -/
theorem bucket_range_iterator_spec {V : Type} (m : Nat → Nat → Option V)
    (kb : KeyBuilder) (base_key start_sequence end_sequence : Nat)
    (hbs : 0 < kb.bucket_size) :
    ((start_sequence ≤ end_sequence) ↔
      ∃ it, BucketRangeIterator.new (liftTable m) kb base_key start_sequence end_sequence =
        Except.ok it) ∧
    (∀ t : BucketTable V, end_sequence < start_sequence →
      BucketRangeIterator.new t kb base_key start_sequence end_sequence =
        Except.error (BucketError.InvalidRange start_sequence end_sequence)) ∧
    (∀ it, end_sequence / kb.bucket_size < 2 ^ 63 →
      BucketRangeIterator.new (liftTable m) kb base_key start_sequence end_sequence =
        Except.ok it →
      drainForward (end_sequence / kb.bucket_size - start_sequence / kb.bucket_size + 2) it =
        ((List.range' (start_sequence / kb.bucket_size)
            (end_sequence / kb.bucket_size - start_sequence / kb.bucket_size + 1)).filterMap
          (m base_key)).map Except.ok ∧
      drainBackward (end_sequence / kb.bucket_size - start_sequence / kb.bucket_size + 2) it =
        (((List.range' (start_sequence / kb.bucket_size)
            (end_sequence / kb.bucket_size - start_sequence / kb.bucket_size + 1)).filterMap
          (m base_key)).reverse).map Except.ok) := by
  refine ⟨?_, ?_, ?_⟩
  · constructor
    · intro hse
      refine ⟨⟨liftTable m, base_key,
        start_sequence / kb.bucket_size, end_sequence / kb.bucket_size,
        i64OfU64 (start_sequence / kb.bucket_size),
        i64OfU64 (end_sequence / kb.bucket_size), false⟩, ?_⟩
      simp only [BucketRangeIterator.new]
      rw [if_neg (by omega)]
    · rintro ⟨it, hok⟩
      by_contra hgt
      simp only [BucketRangeIterator.new] at hok
      rw [if_pos (by omega)] at hok
      exact absurd hok (by simp)
  · intro t hgt
    simp only [BucketRangeIterator.new]
    rw [if_pos (by omega)]
  · intro it hlt63 hok
    have hse : start_sequence ≤ end_sequence := by
      by_contra hgt
      simp only [BucketRangeIterator.new] at hok
      rw [if_pos (by omega)] at hok
      exact absurd hok (by simp)
    have hdiv : start_sequence / kb.bucket_size ≤ end_sequence / kb.bucket_size :=
      Nat.div_le_div_right hse
    simp only [BucketRangeIterator.new] at hok
    rw [if_neg (by omega)] at hok
    have hit := (Except.ok.inj hok).symm
    subst hit
    obtain ⟨sb, hsb⟩ : ∃ x, start_sequence / kb.bucket_size = x := ⟨_, rfl⟩
    obtain ⟨eb, heb⟩ : ∃ x, end_sequence / kb.bucket_size = x := ⟨_, rfl⟩
    rw [hsb, heb] at hdiv ⊢
    rw [heb] at hlt63
    have hsb63 : sb < 2 ^ 63 := by omega
    rw [show i64OfU64 sb = (sb : Int) by unfold i64OfU64; rw [if_pos hsb63],
        show i64OfU64 eb = (eb : Int) by unfold i64OfU64; rw [if_pos hlt63]]
    constructor
    · exact drainForward_lift m base_key sb eb (eb - sb + 1)
        _ _ _ (by omega) (by omega) (by omega) (by omega)
    · exact drainBackward_lift m base_key sb eb (eb - sb + 1)
        _ _ _ (by omega) (by omega) (by omega) (by omega)

/-- C4 witness: the spec's scenario — values at sequences 50, 150, 250 for
base key 123 under bucket_size 100; the range 0..299 forward-yields them in
order and reverse-yields the mirror, and base key 456's values never appear. -/
theorem bucket_range_iterator_spec_witness :
    (0 : Nat) < 100 ∧ (299 : Nat) / 100 < 2 ^ 63 ∧
    BucketRangeIterator.new (liftTable exBucketMap) ⟨100⟩ 123 0 299 =
      Except.ok ⟨liftTable exBucketMap, 123, 0, 2, 0, 2, false⟩ ∧
    drainForward 4 ⟨liftTable exBucketMap, 123, 0, 2, 0, 2, false⟩ =
      [Except.ok 50, Except.ok 150, Except.ok 250] ∧
    drainBackward 4 ⟨liftTable exBucketMap, 123, 0, 2, 0, 2, false⟩ =
      [Except.ok 250, Except.ok 150, Except.ok 50] := by
  have h := (bucket_range_iterator_spec exBucketMap ⟨100⟩ 123 0 299 (by decide)).2.2
    ⟨liftTable exBucketMap, 123, 0, 2, 0, 2, false⟩ (by decide) rfl
  exact ⟨by decide, by decide, rfl, h.1.trans (by decide), h.2.trans (by decide)⟩

/-- C4 counterexample: the valid range 0..2^63 with bucket_size 1 covers
bucket 0, which stores the value 77 for base key 1; yet the wrapping
`end_bucket as i64` cursor initialization turns the back cursor negative, so
both forward and reverse iteration yield nothing — the stored in-range value
is never yielded, refuting the claim's unconditional yield contract. -/
theorem bucket_range_iterator_wraps_at_large_bucket :
    (0 : Nat) ≤ 2 ^ 63 ∧
    BucketRangeIterator.new (liftTable c4CexMap) ⟨1⟩ 1 0 (2 ^ 63) =
      Except.ok c4CexIter ∧
    c4CexMap 1 0 = some 77 ∧ (0 : Nat) / 1 = 0 ∧ (0 : Nat) ≤ (2 ^ 63 : Nat) / 1 ∧
    drainForward 2 c4CexIter = [] ∧
    drainBackward 2 c4CexIter = [] ∧
    (Except.ok 77 : Except BucketError Nat) ∉ ([] : List (Except BucketError Nat)) := by
  have hcond : ¬ (i64OfU64 0 ≤ i64OfU64 (2 ^ 63)) := by decide
  have hloopF : nextLoop (liftTable c4CexMap) 1 (i64OfU64 0) (i64OfU64 (2 ^ 63)) =
      ScanStep.exhausted (i64OfU64 0) (i64OfU64 (2 ^ 63)) := by
    rw [nextLoop, dif_neg hcond]
  have hloopB : nextBackLoop (liftTable c4CexMap) 1 (i64OfU64 0) (i64OfU64 (2 ^ 63)) =
      ScanStep.exhausted (i64OfU64 0) (i64OfU64 (2 ^ 63)) := by
    rw [nextBackLoop, dif_neg hcond]
  have hnextF : BucketRangeIterator.next c4CexIter =
      (none, ⟨liftTable c4CexMap, 1, 0, 2 ^ 63, i64OfU64 0, i64OfU64 (2 ^ 63), true⟩) := by
    simp only [BucketRangeIterator.next, c4CexIter, Bool.false_eq_true, if_false, hloopF]
  have hnextB : BucketRangeIterator.next_back c4CexIter =
      (none, ⟨liftTable c4CexMap, 1, 0, 2 ^ 63, i64OfU64 0, i64OfU64 (2 ^ 63), true⟩) := by
    simp only [BucketRangeIterator.next_back, c4CexIter, Bool.false_eq_true, if_false, hloopB]
  refine ⟨by decide, rfl, by decide, by decide, by decide, ?_, ?_, by simp⟩
  · simp only [drainForward, hnextF]
  · simp only [drainBackward, hnextB]

/-- C9: once a database error has been yielded mid-iteration by a bucket range
iterator (single-value or multimap), the iterator is permanently exhausted:
the state returned alongside an error item is finished, the error having been
yielded exactly once, and a finished iterator returns None from every
subsequent next() or next_back() call with its state unchanged — iteration
never resumes. -/
theorem iterator_error_permanently_exhausts (V : Type) :
    (∀ (s s' : BucketRangeIterator V) (e : BucketError),
       BucketRangeIterator.next s = (some (Except.error e), s') → s'.finished = true) ∧
    (∀ (s s' : BucketRangeIterator V) (e : BucketError),
       BucketRangeIterator.next_back s = (some (Except.error e), s') → s'.finished = true) ∧
    (∀ s : BucketRangeIterator V, s.finished = true →
       BucketRangeIterator.next s = (none, s) ∧
       BucketRangeIterator.next_back s = (none, s)) ∧
    (∀ (s s' : BucketRangeMultimapIterator V) (e : BucketError),
       BucketRangeMultimapIterator.next s = (some (Except.error e), s') →
         s'.finished = true) ∧
    (∀ (s s' : BucketRangeMultimapIterator V) (e : BucketError),
       BucketRangeMultimapIterator.next_back s = (some (Except.error e), s') →
         s'.finished = true) ∧
    (∀ s : BucketRangeMultimapIterator V, s.finished = true →
       BucketRangeMultimapIterator.next s = (none, s) ∧
       BucketRangeMultimapIterator.next_back s = (none, s)) := by
  refine ⟨?_, ?_, ?_, ?_, ?_, ?_⟩
  · intro s s' e h
    by_cases hf : s.finished
    · simp [BucketRangeIterator.next, hf] at h
    · simp only [BucketRangeIterator.next, hf, Bool.false_eq_true, if_false] at h
      cases hloop : nextLoop s.table s.base_key s.front_bucket s.back_bucket with
      | yield v f b => rw [hloop] at h; simp at h
      | failed e2 f b =>
        rw [hloop] at h
        injection h with h1 h2
        rw [← h2]
      | exhausted f b => rw [hloop] at h; simp at h
  · intro s s' e h
    by_cases hf : s.finished
    · simp [BucketRangeIterator.next_back, hf] at h
    · simp only [BucketRangeIterator.next_back, hf, Bool.false_eq_true, if_false] at h
      cases hloop : nextBackLoop s.table s.base_key s.front_bucket s.back_bucket with
      | yield v f b => rw [hloop] at h; simp at h
      | failed e2 f b =>
        rw [hloop] at h
        injection h with h1 h2
        rw [← h2]
      | exhausted f b => rw [hloop] at h; simp at h
  · intro s hf
    exact ⟨by simp [BucketRangeIterator.next, hf],
      by simp [BucketRangeIterator.next_back, hf]⟩
  · intro s s' e h
    by_cases hf : s.finished
    · simp [BucketRangeMultimapIterator.next, hf] at h
    · simp only [BucketRangeMultimapIterator.next, hf, Bool.false_eq_true, if_false] at h
      cases hloop : mmNextLoop s.table s.base_key s.front_bucket s.back_bucket s.front_values with
      | yield v f b buf => rw [hloop] at h; simp at h
      | failed e2 f b =>
        rw [hloop] at h
        injection h with h1 h2
        rw [← h2]
      | exhausted f b => rw [hloop] at h; simp at h
  · intro s s' e h
    by_cases hf : s.finished
    · simp [BucketRangeMultimapIterator.next_back, hf] at h
    · simp only [BucketRangeMultimapIterator.next_back, hf, Bool.false_eq_true, if_false] at h
      cases hloop : mmNextBackLoop s.table s.base_key s.front_bucket s.back_bucket s.back_values with
      | yield v f b buf => rw [hloop] at h; simp at h
      | failed e2 f b =>
        rw [hloop] at h
        injection h with h1 h2
        rw [← h2]
      | exhausted f b => rw [hloop] at h; simp at h
  · intro s hf
    exact ⟨by simp [BucketRangeMultimapIterator.next, hf],
      by simp [BucketRangeMultimapIterator.next_back, hf]⟩

/-- C9 witness: over a table whose lookups fail, the first call yields the
error and marks the iterator finished, and every later next or next_back call
returns None, for both iterator flavours. -/
theorem iterator_error_permanently_exhausts_witness :
    (BucketRangeIterator.next sErrIter =
      (some (Except.error (BucketError.IterationError
        ("Database error during point lookup: boom"))), sErrDone) ∧
     sErrDone.finished = true ∧
     BucketRangeIterator.next sErrDone = (none, sErrDone) ∧
     BucketRangeIterator.next_back sErrDone = (none, sErrDone)) ∧
    (BucketRangeMultimapIterator.next mErrIter =
      (some (Except.error (BucketError.IterationError
        ("Database error during point lookup: boom"))), mErrDone) ∧
     mErrDone.finished = true ∧
     BucketRangeMultimapIterator.next mErrDone = (none, mErrDone) ∧
     BucketRangeMultimapIterator.next_back mErrDone = (none, mErrDone)) := by
  have hloop : nextLoop errTable 1 0 0 = ScanStep.failed ("boom") 1 0 := by
    rw [nextLoop]; simp [errTable]
  have hnext : BucketRangeIterator.next sErrIter =
      (some (Except.error (BucketError.IterationError
        ("Database error during point lookup: boom"))), sErrDone) := by
    simp only [BucketRangeIterator.next, sErrIter, sErrDone, hloop]
    rfl
  have hmloop : mmNextLoop mmErrTable 1 0 0 none = MScanStep.failed ("boom") 1 0 := by
    rw [mmNextLoop]; simp [mmErrTable]
  have hmnext : BucketRangeMultimapIterator.next mErrIter =
      (some (Except.error (BucketError.IterationError
        ("Database error during point lookup: boom"))), mErrDone) := by
    simp only [BucketRangeMultimapIterator.next, mErrIter, mErrDone, hmloop]
    rfl
  exact ⟨⟨hnext, (iterator_error_permanently_exhausts Nat).1 sErrIter sErrDone _ hnext,
    ((iterator_error_permanently_exhausts Nat).2.2.1 sErrDone rfl).1,
    ((iterator_error_permanently_exhausts Nat).2.2.1 sErrDone rfl).2⟩,
    hmnext, (iterator_error_permanently_exhausts Nat).2.2.2.1 mErrIter mErrDone _ hmnext,
    ((iterator_error_permanently_exhausts Nat).2.2.2.2.2 mErrDone rfl).1,
    ((iterator_error_permanently_exhausts Nat).2.2.2.2.2 mErrDone rfl).2⟩

/-- A fold over buckets that are all absent from the existing-table snapshot
leaves the state untouched. -/
theorem merge_foldl_skip {V : Type} (mergeFn : Option V → V → V) (names : List Nat) :
    ∀ (l : List Nat) (acc : TableBucketState V), (∀ b ∈ l, ¬ b ∈ names) →
      l.foldl (fun acc b =>
        if b ∈ names then
          match bGet acc.buckets b with
          | some bt => ⟨bDel acc.buckets b, drainBucketInto mergeFn bt acc.target⟩
          | none => ⟨bDel acc.buckets b, acc.target⟩
        else acc) acc = acc := by
  intro l
  induction l with
  | nil => intro acc _; rfl
  | cons b rest ih =>
    intro acc hall
    have hb : ¬ b ∈ names := hall b (by simp)
    simp only [List.foldl_cons, if_neg hb]
    exact ih acc (fun x hx => hall x (by simp [hx]))

/-- C6: merging the bucket tables 1 -> a (bucket 0) and 1 -> b (bucket 1) into
an empty target under the concatenation law yields 1 -> a+b with the key
present in only one bucket (2 -> x) copied unchanged, and both source tables
deleted; a range containing no existing bucket table merges silently into an
unchanged state; and merge_all with no matching source tables is a no-op. -/
theorem table_bucket_merge_spec :
    (TableBucketBuilder.merge concatMerge c6State 0 1 =
      Except.ok ⟨[], [(1, "a+b"), (2, "x")]⟩) ∧
    (∀ (V : Type) (mergeFn : Option V → V → V) (st : TableBucketState V) (sb eb : Nat),
      sb ≤ eb → (∀ b, sb ≤ b → b ≤ eb → ¬ b ∈ st.buckets.map Prod.fst) →
      TableBucketBuilder.merge mergeFn st sb eb = Except.ok st) ∧
    (∀ (V : Type) (mergeFn : Option V → V → V) (st : TableBucketState V),
      st.buckets = [] → TableBucketBuilder.merge_all mergeFn st = Except.ok st) := by
  refine ⟨by decide, ?_, ?_⟩
  · intro V mergeFn st sb eb hle hout
    simp only [TableBucketBuilder.merge]
    rw [if_neg (by omega)]
    rw [merge_foldl_skip mergeFn (st.buckets.map Prod.fst)
      (List.range' sb (eb - sb + 1)) st ?_]
    intro b hb
    have hrange := List.mem_range'_1.mp hb
    exact hout b hrange.1 (by omega)
  · intro V mergeFn st h
    simp [TableBucketBuilder.merge_all, bucket_range_from_tables, h]

/-- C6 witness: a range of buckets 0..2 none of which has a table merges into
an unchanged state, and merge_all over a state with no bucket tables is a
no-op. -/
theorem table_bucket_merge_spec_witness :
    ((0 : Nat) ≤ 2 ∧
      TableBucketBuilder.merge (fun _ i => (i : Nat)) ⟨[(5, [(1, 2)])], []⟩ 0 2 =
        Except.ok ⟨[(5, [(1, 2)])], []⟩) ∧
    ((⟨[], [(7, 3)]⟩ : TableBucketState Nat).buckets = [] ∧
      TableBucketBuilder.merge_all (fun _ i => (i : Nat)) ⟨[], [(7, 3)]⟩ =
        Except.ok ⟨[], [(7, 3)]⟩) :=
  ⟨⟨by decide,
    table_bucket_merge_spec.2.1 Nat (fun _ i => i) ⟨[(5, [(1, 2)])], []⟩ 0 2
      (by decide) (by intro b h1 h2; simp; omega)⟩,
   rfl,
   table_bucket_merge_spec.2.2 Nat (fun _ i => i) ⟨[], [(7, 3)]⟩ rfl⟩

/-- C7: whenever at least one planned table already has rows in the
destination, copy_database reports a conflict error carrying the full list of
conflicting planned tables — every planned table with rows is in that list,
the check having run over all planned tables before any write — and the
destination is left unchanged: no partial copy occurs. -/
theorem copy_database_conflict_aborts (source destination : CopyDB)
    (plan : List CopyStep)
    (h : ∃ st ∈ plan, ∃ rows, dbGet destination st.name = some rows ∧ rows ≠ []) :
    (copy_database source destination plan).snd =
      Except.error (DbCopyError.DestinationTablesExist
        ((plan.filter (fun st => preflight destination st)).map displayName)) ∧
    (copy_database source destination plan).fst = destination ∧
    (∀ st ∈ plan, (∃ rows, dbGet destination st.name = some rows ∧ rows ≠ []) →
      displayName st ∈
        (plan.filter (fun st => preflight destination st)).map displayName) := by
  have hmem : ∀ st ∈ plan, (∃ rows, dbGet destination st.name = some rows ∧ rows ≠ []) →
      displayName st ∈
        (plan.filter (fun st => preflight destination st)).map displayName := by
    rintro st hst ⟨rows, hrows, hrne⟩
    exact List.mem_map_of_mem _ (List.mem_filter.mpr ⟨hst, by simp [preflight, hrows]⟩)
  have hne : (plan.filter (fun st => preflight destination st)).map displayName ≠ [] := by
    obtain ⟨st, hst, hex⟩ := h
    exact List.ne_nil_of_mem (hmem st hst hex)
  refine ⟨?_, ?_, hmem⟩ <;> simp [copy_database, hne]

/-- C7 witness: a destination whose table t1 already has a row makes the plan
over t1 and t2 fail with a conflict listing exactly table t1, and the
destination is untouched. -/
theorem copy_database_conflict_aborts_witness :
    ((⟨CopyKind.table, "t1"⟩ : CopyStep) ∈ c7Plan ∧
      dbGet c7Dest "t1" = some [(1, 2)] ∧ ([(1, 2)] : List (Nat × Nat)) ≠ []) ∧
    (copy_database [] c7Dest c7Plan).snd =
      Except.error (DbCopyError.DestinationTablesExist ["table t1"]) ∧
    (copy_database [] c7Dest c7Plan).fst = c7Dest := by
  have h := copy_database_conflict_aborts [] c7Dest c7Plan
    ⟨⟨CopyKind.table, "t1"⟩, by decide, [(1, 2)], by decide, by decide⟩
  exact ⟨⟨by decide, by decide, by decide⟩, h.1.trans (by decide), h.2.1⟩

/-- C10: the redb Value implementation for RoaringValue is total and silently
lossy on bad input — every byte string that decode rejects (empty input, a
version byte other than 1, or a failing bitmap deserialization) is mapped by
from_bytes to the empty bitmap instead of an error, even though decode itself
rejects those same inputs with an error. -/
theorem roaring_from_bytes_silently_lossy (B : Type) (empty : B)
    (deserialize : List Nat → Except String B) :
    (∀ data e, RoaringValue.decode deserialize data = Except.error e →
       RoaringValue.from_bytes empty deserialize data = ⟨empty⟩) ∧
    (RoaringValue.decode deserialize ([] : List Nat) =
       Except.error (RoaringError.InvalidBitmap ("Empty data"))) ∧
    (∀ v rest, v ≠ 1 →
       RoaringValue.decode deserialize (v :: rest) =
         Except.error (RoaringError.InvalidBitmap
           ("Unsupported version: " ++ toString v))) ∧
    (∀ rest e, deserialize rest = Except.error e →
       RoaringValue.decode deserialize (1 :: rest) =
         Except.error (RoaringError.SerializationFailed e)) := by
  refine ⟨?_, rfl, ?_, ?_⟩
  · intro data e hdec
    simp [RoaringValue.from_bytes, hdec]
  · intro v rest hv
    simp [RoaringValue.decode, hv]
  · intro rest e hd
    simp [RoaringValue.decode, hd]

/-- C10 witness: the empty input, the version byte 99, and a corrupt payload
are all rejected by decode yet mapped to the empty bitmap by from_bytes. -/
theorem roaring_from_bytes_silently_lossy_witness :
    (RoaringValue.decode exDeser ([] : List Nat) =
       Except.error (RoaringError.InvalidBitmap ("Empty data")) ∧
     RoaringValue.from_bytes 0 exDeser [] = ⟨0⟩) ∧
    ((99 : Nat) ≠ 1 ∧ RoaringValue.from_bytes 0 exDeser [99, 1, 2] = ⟨0⟩) ∧
    (exDeser [5] = Except.error ("bad") ∧
     RoaringValue.decode exDeser [1, 5] =
       Except.error (RoaringError.SerializationFailed ("bad")) ∧
     RoaringValue.from_bytes 0 exDeser [1, 5] = ⟨0⟩) := by
  have t := roaring_from_bytes_silently_lossy Nat 0 exDeser
  refine ⟨⟨t.2.1, t.1 [] _ t.2.1⟩,
    ⟨by decide, t.1 [99, 1, 2] _ (t.2.2.1 99 [1, 2] (by decide))⟩,
    rfl, t.2.2.2 [5] _ rfl, t.1 [1, 5] _ (t.2.2.2 [5] _ rfl)⟩

end RedbExtras
